import Mathlib

/-
  Verification development for the pizero2-rplayer internet-radio controller
  (src/rplayer.py).  Python functions are shallowly embedded as pure Lean
  functions; network and subprocess effects are passed in as explicit oracle
  values, and mutable object state is threaded explicitly.
-/

namespace RPlayer

/-! ### Python string primitives

`truthy` models Python truthiness of a string (`if s:`), `truthyOpt` the
truthiness of an `Optional[str]`.  `pyIn` models `pat in s` (substring test)
and `pyEndsWith` models `s.endswith(suf)`. -/

def truthy (s : String) : Bool := !(s == "")

def truthyOpt : Option String → Bool
  | none => false
  | some s => truthy s

def startsList : List Char → List Char → Bool
  | [], _ => true
  | _ :: _, [] => false
  | p :: ps, c :: cs => p == c && startsList ps cs

def inCharList (pat : List Char) : List Char → Bool
  | [] => startsList pat []
  | c :: rest => startsList pat (c :: rest) || inCharList pat rest

def pyIn (pat s : String) : Bool := inCharList pat.data s.data

def pyEndsWith (s suf : String) : Bool := startsList suf.data.reverse s.data.reverse

/-! ### Data model -/

/-- `Station` dataclass of rplayer.py (id, name, stream_url, image_url). -/
structure Station where
  id : String
  name : String
  stream_url : String
  image_url : String
deriving DecidableEq

/-- `ProgramInfo` dataclass of rplayer.py: title, img_url and the start (`ft`)
and end (`to`) instants of the program; instants are modelled as integers
(comparison of timezone-aware datetimes is a total order). -/
structure ProgramInfo where
  title : String
  img_url : String
  ft : Int
  «to» : Int
deriving DecidableEq

/-! ### ProgramCatalog: `RadikoResolver.current_program` (lines 333-341)

The schedule list is the cached `_get_programs` result; `now` is the query
instant.  The Python loop returns the first program with
`program.ft <= now < program.to`, and `None` when the list is empty
(`if not programs: return None`) or no entry matches. -/

def progMatches (now : Int) (p : ProgramInfo) : Bool :=
  decide (p.ft ≤ now) && decide (now < p.«to»)

def current_program (programs : List ProgramInfo) (now : Int) : Option ProgramInfo :=
  if programs.isEmpty then none
  else programs.find? (progMatches now)

theorem current_program_eq_find (programs : List ProgramInfo) (now : Int) :
    current_program programs now = programs.find? (progMatches now) := by
  cases programs <;> simp [current_program]

/-- C5 counterexample: with two overlapping entries both containing the
query instant, `current_program` still returns a program (the first match),
so "returns a program P iff exactly one entry's interval contains now" is
false on the code: here it returns `A` although `B` also matches and
`B ≠ A`. -/
theorem current_program_overlap_cex :
    current_program [⟨"A", "", 0, 10⟩, ⟨"B", "", 5, 15⟩] 7 = some ⟨"A", "", 0, 10⟩ ∧
    (⟨"B", "", 5, 15⟩ : ProgramInfo) ∈ [(⟨"A", "", 0, 10⟩ : ProgramInfo), ⟨"B", "", 5, 15⟩] ∧
    (5 : Int) ≤ 7 ∧ (7 : Int) < 15 ∧
    (⟨"B", "", 5, 15⟩ : ProgramInfo) ≠ ⟨"A", "", 0, 10⟩ := by
  refine ⟨by decide, by decide, by decide, by decide, by decide⟩

/-- C5 (amended): `current_program` returns the first entry whose half-open
interval `[ft, to)` contains `now`: any returned entry is a member of the
schedule and contains `now`; the result is absent iff no entry contains
`now` (in particular for the empty schedule); and whenever exactly one entry
contains `now`, that entry is returned. -/
theorem current_program_first_match (programs : List ProgramInfo) (now : Int)
    (P : ProgramInfo) :
    (current_program programs now = some P →
      P ∈ programs ∧ P.ft ≤ now ∧ now < P.«to») ∧
    (current_program programs now = none ↔
      ∀ Q ∈ programs, ¬(Q.ft ≤ now ∧ now < Q.«to»)) ∧
    ((P ∈ programs ∧ P.ft ≤ now ∧ now < P.«to» ∧
        ∀ Q ∈ programs, (Q.ft ≤ now ∧ now < Q.«to») → Q = P) →
      current_program programs now = some P) := by
  rw [current_program_eq_find]
  refine ⟨fun h => ?_, ?_, fun h => ?_⟩
  · refine ⟨List.mem_of_find?_eq_some h, ?_⟩
    have hp := List.find?_some h
    simpa [progMatches] using hp
  · rw [List.find?_eq_none]
    constructor
    · intro h Q hQ hcon
      have := h Q hQ
      simp [progMatches] at this
      obtain ⟨hc1, hc2⟩ := hcon
      omega
    · intro h Q hQ
      have := h Q hQ
      simp [progMatches]
      intro h1
      by_contra h2
      exact this ⟨h1, by omega⟩
  · obtain ⟨hmem, h1, h2, huniq⟩ := h
    cases hfind : programs.find? (progMatches now) with
    | none =>
      rw [List.find?_eq_none] at hfind
      have := hfind P hmem
      simp [progMatches] at this
      omega
    | some Q =>
      have hQmem := List.mem_of_find?_eq_some hfind
      have hQp := List.find?_some hfind
      simp [progMatches] at hQp
      exact congrArg some (huniq Q hQmem hQp)

/-- Witness for `current_program_first_match`: a two-entry schedule
queried exactly at the second entry's start instant returns the second
entry (half-open boundary), and at an uncovered instant returns none. -/
theorem current_program_first_match_witness :
    current_program [⟨"A", "", 900, 1000⟩, ⟨"B", "", 1000, 1100⟩] 1000 =
      some ⟨"B", "", 1000, 1100⟩ ∧
    current_program [⟨"A", "", 900, 1000⟩, ⟨"B", "", 1000, 1100⟩] 1200 = none := by
  constructor
  · exact (current_program_first_match [⟨"A", "", 900, 1000⟩, ⟨"B", "", 1000, 1100⟩]
      1000 ⟨"B", "", 1000, 1100⟩).2.2 (by decide)
  · exact (current_program_first_match [⟨"A", "", 900, 1000⟩, ⟨"B", "", 1000, 1100⟩]
      1200 ⟨"B", "", 1000, 1100⟩).2.1.mpr (by decide)

/-! ### Shutdown-confirmation sub-state machine: `Player.tick` (lines 1047-1071)

`tickConfirm` models the action-handling prefix of `tick()`:
state `confirmAt` is `self._shutdown_confirm_at` (`None` = idle,
`some t` = armed at wall-clock instant `t`), `action` the polled button
action, `now` the current wall clock, `timeoutSec` the
`DEFAULT_SHUTDOWN_CONFIRM_SEC` constant.  The result is the new
`confirmAt` together with what the tick did:
`shutdownNow` = the destructive effect (`_shutdown_now`) ran and the tick
returned; `prompt` = the confirmation prompt was (re)displayed and the tick
returned; `dispatch a` = control fell through to the normal dispatch phase
with remaining action `a`. -/

inductive Action where
  | prev
  | next
  | mode
  | shutdown
deriving DecidableEq

inductive TickEvent where
  | shutdownNow
  | prompt
  | dispatch (a : Option Action)
deriving DecidableEq

def tickConfirm (confirmAt : Option Int) (action : Option Action)
    (now timeoutSec : Int) : Option Int × TickEvent :=
  match confirmAt with
  | none =>
    if action = some Action.shutdown then (some now, TickEvent.prompt)
    else (none, TickEvent.dispatch action)
  | some t =>
    if action = some Action.mode then (some t, TickEvent.shutdownNow)
    else if action = some Action.prev ∨ action = some Action.next
        ∨ action = some Action.shutdown then
      (none, TickEvent.dispatch none)
    else if now - t ≥ timeoutSec then (none, TickEvent.dispatch action)
    else (some t, TickEvent.prompt)

/-- Number of invocations of the destructive effect (`_shutdown_now`) in one
tick with the given event. -/
def shutdownEffects : TickEvent → Nat
  | TickEvent.shutdownNow => 1
  | _ => 0

/-- C4: from the armed state of the shutdown-confirmation machine,
(a) a navigation action cancels back to idle with no destructive effect,
(b) the confirming `mode` action before the timeout performs the destructive
effect exactly once, (c) with no pending action and the timeout elapsed the
tick returns to idle with no effect (the wall-clock timeout being checked on
that very tick). -/
theorem shutdown_confirm_machine (t now timeoutSec : Int) (a : Option Action) :
    ((a = some Action.prev ∨ a = some Action.next) →
      tickConfirm (some t) a now timeoutSec = (none, TickEvent.dispatch none) ∧
      shutdownEffects (tickConfirm (some t) a now timeoutSec).2 = 0) ∧
    (now - t < timeoutSec →
      tickConfirm (some t) (some Action.mode) now timeoutSec
          = (some t, TickEvent.shutdownNow) ∧
      shutdownEffects (tickConfirm (some t) (some Action.mode) now timeoutSec).2 = 1) ∧
    (now - t ≥ timeoutSec →
      tickConfirm (some t) none now timeoutSec = (none, TickEvent.dispatch none) ∧
      shutdownEffects (tickConfirm (some t) none now timeoutSec).2 = 0) := by
  refine ⟨fun h => ?_, fun _ => ?_, fun h => ?_⟩
  · rcases h with h | h <;> subst h <;> simp [tickConfirm, shutdownEffects]
  · simp [tickConfirm, shutdownEffects]
  · simp only [tickConfirm]
    rw [if_neg (by simp), if_neg (by simp), if_pos h]
    simp [shutdownEffects]

/-- Witness for `shutdown_confirm_machine` at concrete inputs
(armed at 100, timeout 10, navigation at 105 / confirm at 105 / silence
until 111). -/
theorem shutdown_confirm_machine_witness :
    (tickConfirm (some 100) (some Action.next) 105 10 = (none, TickEvent.dispatch none) ∧
      shutdownEffects (tickConfirm (some 100) (some Action.next) 105 10).2 = 0) ∧
    (tickConfirm (some 100) (some Action.mode) 105 10 = (some 100, TickEvent.shutdownNow) ∧
      shutdownEffects (tickConfirm (some 100) (some Action.mode) 105 10).2 = 1) ∧
    (tickConfirm (some 100) none 111 10 = (none, TickEvent.dispatch none) ∧
      shutdownEffects (tickConfirm (some 100) none 111 10).2 = 0) := by
  refine ⟨(shutdown_confirm_machine 100 105 10 (some Action.next)).1 (Or.inr rfl),
    (shutdown_confirm_machine 100 105 10 (some Action.mode)).2.1 (by decide),
    (shutdown_confirm_machine 100 111 10 none).2.2 (by decide)⟩

/-! ### Auth phase 1: `RadikoResolver._auth_with_radiko` (lines 763-802)

Each candidate endpoint's response is modelled by the three relevant
response headers (`X-Radiko-AuthToken`, `X-Radiko-KeyLength`,
`X-Radiko-KeyOffset`); `none` = header absent, `some ""` = present but
empty (falsy in the Python `if token and keylength and keyoffset` check).
The loop overwrites `token`/`keylength`/`keyoffset` with each response's
headers and breaks at the first response where all three are truthy; after
the loop, if the three values are not all truthy the function returns
`None` without attempting phase 2.  `phase2` abstracts the rest of the
function (partial-key derivation and the auth2 exchange), which receives
exactly the three header values of the breaking endpoint. -/

structure Auth1Resp where
  token : Option String
  keylength : Option String
  keyoffset : Option String
deriving DecidableEq

def hdr3 (r : Auth1Resp) : Bool :=
  truthyOpt r.token && truthyOpt r.keylength && truthyOpt r.keyoffset

def tripleOk (x : Option String × Option String × Option String) : Bool :=
  truthyOpt x.1 && truthyOpt x.2.1 && truthyOpt x.2.2

def auth1Loop : List Auth1Resp →
    (Option String × Option String × Option String) →
    (Option String × Option String × Option String)
  | [], acc => acc
  | r :: rest, _ =>
    if hdr3 r then (r.token, r.keylength, r.keyoffset)
    else auth1Loop rest (r.token, r.keylength, r.keyoffset)

/-- `_auth_with_radiko`, with phase 2 abstracted: returns the token result
together with whether phase 2 was attempted at all. -/
def authWithRadiko (resps : List Auth1Resp)
    (phase2 : String → String → String → Option String) : Option String × Bool :=
  let acc := auth1Loop resps (none, none, none)
  if tripleOk acc then
    (phase2 (acc.1.getD "") (acc.2.1.getD "") (acc.2.2.getD ""), true)
  else (none, false)

theorem auth1Loop_found {resps : List Auth1Resp} {r : Auth1Resp}
    (h : resps.find? hdr3 = some r) :
    ∀ acc, auth1Loop resps acc = (r.token, r.keylength, r.keyoffset) := by
  induction resps with
  | nil => simp at h
  | cons x rest ih =>
    intro acc
    by_cases hx : hdr3 x
    · rw [List.find?_cons_of_pos _ hx] at h
      cases h
      simp [auth1Loop, hx]
    · rw [List.find?_cons_of_neg _ hx] at h
      simp [auth1Loop, hx]
      exact ih h _

theorem auth1Loop_none {resps : List Auth1Resp}
    (h : resps.find? hdr3 = none) :
    ∀ acc, tripleOk acc = false → tripleOk (auth1Loop resps acc) = false := by
  induction resps with
  | nil => intro acc hacc; simpa [auth1Loop] using hacc
  | cons x rest ih =>
    rw [List.find?_cons] at h
    intro acc hacc
    cases hx : hdr3 x with
    | true => simp [hx] at h
    | false =>
      simp [hx] at h
      simp [auth1Loop, hx]
      refine ih (List.find?_eq_none.mpr fun x hxm => ?_) _
        (by simpa [tripleOk, hdr3] using hx)
      simp [h x hxm]

/-- C6: phase 1 stops at the first candidate endpoint whose response carries
all three required headers (token, key-length, key-offset) with truthy
values, and phase 2 receives exactly that endpoint's header values; an
endpoint missing any of the three lets the next candidate be tried (it is
skipped by the first-match search); when every candidate lacks the three
headers, authentication yields an absent token and phase 2 is never
attempted. -/
theorem auth1_first_complete_endpoint (resps : List Auth1Resp)
    (phase2 : String → String → String → Option String) :
    (∀ r, resps.find? hdr3 = some r →
      authWithRadiko resps phase2 =
        (phase2 (r.token.getD "") (r.keylength.getD "") (r.keyoffset.getD ""), true)) ∧
    (resps.find? hdr3 = none → authWithRadiko resps phase2 = (none, false)) := by
  constructor
  · intro r h
    have hloop := auth1Loop_found h (none, none, none)
    have hr := List.find?_some h
    have hok : tripleOk (r.token, r.keylength, r.keyoffset) = true := by
      simpa [tripleOk, hdr3] using hr
    simp [authWithRadiko, hloop, hok]
  · intro h
    have := auth1Loop_none h (none, none, none) (by simp [tripleOk, truthyOpt])
    simp [authWithRadiko, this]

/-- Witness for `auth1_first_complete_endpoint`: four candidate endpoints
where only the third returns all three headers — its values reach phase 2;
and a run where no candidate has them — absent token, phase 2 skipped. -/
theorem auth1_first_complete_endpoint_witness :
    authWithRadiko
      [⟨none, none, none⟩, ⟨some "t1", some "16", none⟩,
        ⟨some "t3", some "16", some "8"⟩, ⟨some "t4", some "16", some "8"⟩]
      (fun t l o => some (t ++ "/" ++ l ++ "/" ++ o)) = (some "t3/16/8", true) ∧
    authWithRadiko [⟨none, none, none⟩, ⟨some "t1", none, some "8"⟩]
      (fun t l o => some (t ++ "/" ++ l ++ "/" ++ o)) = (none, false) := by
  constructor
  · exact (auth1_first_complete_endpoint
      [⟨none, none, none⟩, ⟨some "t1", some "16", none⟩,
        ⟨some "t3", some "16", some "8"⟩, ⟨some "t4", some "16", some "8"⟩]
      (fun t l o => some (t ++ "/" ++ l ++ "/" ++ o))).1
      ⟨some "t3", some "16", some "8"⟩ (by decide)
  · exact (auth1_first_complete_endpoint
      [⟨none, none, none⟩, ⟨some "t1", none, some "8"⟩]
      (fun t l o => some (t ++ "/" ++ l ++ "/" ++ o))).2 (by decide)

/-! ### Player navigation: `Player.__init__`, `current_station`,
`next_station`, `prev_station` (lines 914-996)

`PlayerNav` carries the fields of `Player` that station selection reads and
writes: the fixed station list, the selected index (a Python `int`, so an
`Int` here with Python's nonnegative `%` on a positive modulus, which is
`Int.emod`), the mode string and the current world-mode station.
World-mode navigation delegates to `_world_next`/`_world_prev`
(directory-collaborator driven, out of this fragment); the delegation is
reported as `worldDelegated`.  `onlyOne` is the single-station early return
that redraws the status line `"Only one station"` without touching the
index, and `moved` the modular index update followed by a playback
restart. -/

inductive Mode where
  | radiko
  | world
deriving DecidableEq

structure PlayerNav where
  stations : List Station
  index : Int
  mode : Mode
  worldStation : Option Station
deriving DecidableEq

/-- The station-list validation of `Player.__init__`
(`if not stations: raise ValueError("No stations configured")`) together
with the initial selection fields (`self._index = 0`,
`self._mode = "radiko"`, no world station yet). -/
def playerInit (stations : List Station) : Except String PlayerNav :=
  if stations.isEmpty then Except.error "No stations configured"
  else Except.ok { stations := stations, index := 0, mode := Mode.radiko,
                   worldStation := none }

/-- `Player.current_station`: the world station in world mode when one is
set (dataclass instances are truthy), else `self._stations[self._index]`
(`none` models the `IndexError` of an out-of-range index). -/
def current_station (p : PlayerNav) : Option Station :=
  if p.mode = Mode.world ∧ p.worldStation.isSome then p.worldStation
  else p.stations.get? p.index.toNat

inductive NavResult where
  | onlyOne
  | moved
  | worldDelegated
deriving DecidableEq

def next_station (p : PlayerNav) : PlayerNav × NavResult :=
  if p.mode = Mode.world then (p, NavResult.worldDelegated)
  else if p.stations.length < 2 then (p, NavResult.onlyOne)
  else ({ p with index := (p.index + 1) % (p.stations.length : Int) }, NavResult.moved)

def prev_station (p : PlayerNav) : PlayerNav × NavResult :=
  if p.mode = Mode.world then (p, NavResult.worldDelegated)
  else if p.stations.length < 2 then (p, NavResult.onlyOne)
  else ({ p with index := (p.index - 1) % (p.stations.length : Int) }, NavResult.moved)

inductive NavAct where
  | goNext
  | goPrev
deriving DecidableEq

def navStep : NavAct → PlayerNav → PlayerNav
  | NavAct.goNext, p => (next_station p).1
  | NavAct.goPrev, p => (prev_station p).1

def navRun : List NavAct → PlayerNav → PlayerNav
  | [], p => p
  | a :: rest, p => navRun rest (navStep a p)

theorem navStep_fields (a : NavAct) (p : PlayerNav) :
    (navStep a p).stations = p.stations ∧ (navStep a p).mode = p.mode ∧
    (navStep a p).worldStation = p.worldStation := by
  cases a <;> simp only [navStep, next_station, prev_station] <;>
    split <;> try split
  all_goals simp

theorem navStep_index_range (a : NavAct) (p : PlayerNav)
    (hm : p.mode = Mode.radiko) (h2 : 2 ≤ p.stations.length)
    (h0 : 0 ≤ p.index) (hlt : p.index < (p.stations.length : Int)) :
    0 ≤ (navStep a p).index ∧ (navStep a p).index < ((navStep a p).stations.length : Int) := by
  have hpos : (0 : Int) < (p.stations.length : Int) := by exact_mod_cast Nat.lt_of_lt_of_le Nat.zero_lt_two h2
  have hne : (p.stations.length : Int) ≠ 0 := ne_of_gt hpos
  have hnw : ¬ p.mode = Mode.world := by rw [hm]; intro hc; cases hc
  have hn2 : ¬ p.stations.length < 2 := by omega
  cases a <;>
    simp only [navStep, next_station, prev_station, if_neg hnw, if_neg hn2] <;>
    exact ⟨Int.emod_nonneg _ hne, Int.emod_lt_of_pos _ hpos⟩

theorem navRun_invariant (acts : List NavAct) (p : PlayerNav)
    (hm : p.mode = Mode.radiko) (h2 : 2 ≤ p.stations.length)
    (h0 : 0 ≤ p.index) (hlt : p.index < (p.stations.length : Int)) :
    (navRun acts p).stations = p.stations ∧ (navRun acts p).mode = Mode.radiko ∧
    0 ≤ (navRun acts p).index ∧
    (navRun acts p).index < ((navRun acts p).stations.length : Int) := by
  induction acts generalizing p with
  | nil => exact ⟨rfl, hm, h0, hlt⟩
  | cons a rest ih =>
    have hf := navStep_fields a p
    have hr := navStep_index_range a p hm h2 h0 hlt
    have := ih (navStep a p) (hf.2.1.trans hm) (hf.1 ▸ h2) hr.1 (hf.1 ▸ hr.2)
    simpa [navRun, hf.1] using this

/-- Concrete three-station player used in the full-cycle scenario. -/
def demoPlayer3 : PlayerNav :=
  { stations := [⟨"A", "", "", ""⟩, ⟨"B", "", "", ""⟩, ⟨"C", "", "", ""⟩],
    index := 0, mode := Mode.radiko, worldStation := none }

/-- Concrete two-station player used in the navigation witness. -/
def demoPlayer2 : PlayerNav :=
  { stations := [⟨"A", "", "", ""⟩, ⟨"B", "", "", ""⟩],
    index := 0, mode := Mode.radiko, worldStation := none }

/-- Concrete one-station player used in the single-station scenario. -/
def demoPlayer1 : PlayerNav :=
  { stations := [⟨"A", "", "", ""⟩],
    index := 0, mode := Mode.radiko, worldStation := none }

/-- C7: in primary (radiko) mode with at least two stations, any sequence
of next/prev navigation actions keeps the selected index inside
`[0, stations.length)` (next adds 1 and prev subtracts 1 modulo the list
length, with Python's nonnegative modulus); three `next` calls from index 0
on a three-station list come back to index 0; and on a single-station list
both `next_station` and `prev_station` leave the state unchanged while
still emitting the status redraw (`onlyOne`). -/
theorem nav_index_modulo (p : PlayerNav) (acts : List NavAct) :
    (p.mode = Mode.radiko → 2 ≤ p.stations.length → 0 ≤ p.index →
      p.index < (p.stations.length : Int) →
      0 ≤ (navRun acts p).index ∧
        (navRun acts p).index < ((navRun acts p).stations.length : Int)) ∧
    (navRun [NavAct.goNext, NavAct.goNext, NavAct.goNext] demoPlayer3 = demoPlayer3) ∧
    (p.mode = Mode.radiko → p.stations.length = 1 →
      next_station p = (p, NavResult.onlyOne) ∧
      prev_station p = (p, NavResult.onlyOne)) := by
  refine ⟨fun hm h2 h0 hlt => ?_, by decide, fun hm h1 => ?_⟩
  · have := navRun_invariant acts p hm h2 h0 hlt
    exact ⟨this.2.2.1, this.2.2.2⟩
  · have hnw : ¬ p.mode = Mode.world := by rw [hm]; intro hc; cases hc
    have hn2 : p.stations.length < 2 := by omega
    constructor <;> simp [next_station, prev_station, hnw, hn2]

/-- Witness for `nav_index_modulo` at a concrete two-station player (five
mixed navigation actions stay in range) and a concrete one-station player
(next/prev are index no-ops with the status redraw). -/
theorem nav_index_modulo_witness :
    (0 ≤ (navRun [NavAct.goPrev, NavAct.goPrev, NavAct.goNext, NavAct.goPrev, NavAct.goPrev]
        demoPlayer2).index ∧
      (navRun [NavAct.goPrev, NavAct.goPrev, NavAct.goNext, NavAct.goPrev, NavAct.goPrev]
        demoPlayer2).index <
      ((navRun [NavAct.goPrev, NavAct.goPrev, NavAct.goNext, NavAct.goPrev, NavAct.goPrev]
        demoPlayer2).stations.length : Int)) ∧
    (next_station demoPlayer1 = (demoPlayer1, NavResult.onlyOne) ∧
      prev_station demoPlayer1 = (demoPlayer1, NavResult.onlyOne)) := by
  constructor
  · exact (nav_index_modulo demoPlayer2
      [NavAct.goPrev, NavAct.goPrev, NavAct.goNext, NavAct.goPrev, NavAct.goPrev]).1
      rfl (by decide) (by decide) (by decide)
  · exact (nav_index_modulo demoPlayer1 []).2.2 rfl (by decide)

/-- C10: constructing a `Player` from an empty station list fails with
`ValueError("No stations configured")`; any successfully constructed player
holds the given non-empty list with index 0 in primary mode; and in primary
mode, whenever the index invariant `0 ≤ index < length` holds (it does at
construction and is preserved by navigation, cf. `nav_index_modulo`),
`current_station` returns an element of the station list — in particular it
does so for every freshly constructed player. -/
theorem player_init_nonempty :
    (playerInit [] = Except.error "No stations configured") ∧
    (∀ ss p, playerInit ss = Except.ok p →
      ss ≠ [] ∧ p.stations = ss ∧ p.index = 0 ∧ p.mode = Mode.radiko) ∧
    (∀ p : PlayerNav, p.mode = Mode.radiko → 0 ≤ p.index →
      p.index < (p.stations.length : Int) →
      ∃ s, current_station p = some s ∧ s ∈ p.stations) ∧
    (∀ ss p, playerInit ss = Except.ok p →
      ∃ s, current_station p = some s ∧ s ∈ ss) := by
  have hcur : ∀ p : PlayerNav, p.mode = Mode.radiko → 0 ≤ p.index →
      p.index < (p.stations.length : Int) →
      ∃ s, current_station p = some s ∧ s ∈ p.stations := by
    intro p hm h0 hlt
    have hnw : ¬(p.mode = Mode.world ∧ p.worldStation.isSome) := by
      rw [hm]; intro hc; cases hc.1
    have hnat : p.index.toNat < p.stations.length := by
      have := (Int.toNat_lt' (by omega : p.stations.length ≠ 0)).mpr hlt
      exact this
    refine ⟨p.stations.get ⟨p.index.toNat, hnat⟩, ?_, List.get_mem _ _ hnat⟩
    simp [current_station, hnw, List.get?_eq_get hnat]
  have hinit : ∀ ss p, playerInit ss = Except.ok p →
      ss ≠ [] ∧ p.stations = ss ∧ p.index = 0 ∧ p.mode = Mode.radiko := by
    intro ss p h
    by_cases hss : ss.isEmpty
    · simp [playerInit, hss] at h
    · simp [playerInit, hss] at h
      refine ⟨by simpa [List.isEmpty_iff] using hss, ?_⟩
      rw [← h]
      exact ⟨rfl, rfl, rfl⟩
  refine ⟨by simp [playerInit], hinit, hcur, fun ss p h => ?_⟩
  obtain ⟨hne, hst, hidx, hm⟩ := hinit ss p h
  have hlen : 0 < ss.length := List.length_pos.mpr hne
  obtain ⟨s, hs, hmem⟩ := hcur p hm (by omega) (by rw [hst, hidx]; exact_mod_cast hlen)
  exact ⟨s, hs, hst ▸ hmem⟩

/-- Witness for `player_init_nonempty`: constructing from a concrete
two-station list succeeds and `current_station` returns a member of the
list. -/
theorem player_init_nonempty_witness :
    playerInit ([] : List Station) = Except.error "No stations configured" ∧
    (∃ s, current_station demoPlayer2 = some s ∧ s ∈ demoPlayer2.stations) := by
  refine ⟨player_init_nonempty.1, ?_⟩
  exact player_init_nonempty.2.2.2 demoPlayer2.stations demoPlayer2 rfl

/-! ### AuthSession caching: `RadikoResolver.auth_token` (lines 310-324)

`cachedTok` is the `self._auth_token` field; the three oracle values are the
results of `_get_token_from_attrs()`, `_get_token_from_methods()` and
`_auth_with_radiko()` — which are only invoked when the cached token is not
truthy.  The result is the returned token, the new `self._auth_token`, and
whether any acquisition (and hence any network activity) was attempted. -/

def auth_token (cachedTok attrsTok methodsTok radikoTok : Option String) :
    Option String × Option String × Bool :=
  if truthyOpt cachedTok then (cachedTok, cachedTok, false)
  else if truthyOpt attrsTok then (attrsTok, attrsTok, true)
  else if truthyOpt methodsTok then (methodsTok, methodsTok, true)
  else if truthyOpt radikoTok then (radikoTok, radikoTok, true)
  else (cachedTok, cachedTok, true)

theorem auth_token_result_cached (c a m r : Option String) :
    (auth_token c a m r).2.1 = (auth_token c a m r).1 := by
  by_cases hc : truthyOpt c = true <;> by_cases ha : truthyOpt a = true <;>
    by_cases hm : truthyOpt m = true <;> by_cases hr : truthyOpt r = true <;>
    simp [auth_token, hc, ha, hm, hr]

/-- C9: `auth_token` acquisition is idempotent after success: with a truthy
cached token every call returns exactly the cached value and attempts no
acquisition; and after any call whose result is a non-empty token, a second
call on the resulting state returns that identical token with no
acquisition attempted, whatever the later oracle outcomes would be (no
expiry, no refresh). -/
theorem auth_token_idempotent (c a m r a2 m2 r2 : Option String) :
    (truthyOpt c = true → auth_token c a m r = (c, c, false)) ∧
    (truthyOpt (auth_token c a m r).1 = true →
      auth_token (auth_token c a m r).2.1 a2 m2 r2 =
        ((auth_token c a m r).1, (auth_token c a m r).2.1, false)) := by
  constructor
  · intro h
    simp [auth_token, h]
  · intro h
    rw [auth_token_result_cached c a m r]
    generalize hX : (auth_token c a m r).1 = X at h ⊢
    simp [auth_token, h]

/-- Witness for `auth_token_idempotent`: a cold start that succeeds through
the full two-phase handshake caches the token, and the second call returns
it unchanged with no acquisition even though every oracle now fails. -/
theorem auth_token_idempotent_witness :
    auth_token (some "tok") none none none = (some "tok", some "tok", false) ∧
    auth_token (auth_token none none none (some "tok")).2.1 none none none =
      ((auth_token none none none (some "tok")).1,
        (auth_token none none none (some "tok")).2.1, false) := by
  exact ⟨(auth_token_idempotent (some "tok") none none none none none none).1 (by decide),
    (auth_token_idempotent none none none (some "tok") none none none).2 (by decide)⟩

/-! ### StreamResolver caching: `RadikoResolver.stream_url` (lines 400-447)
and the stream-resolution fragment of `Player._start_current`
(lines 1007-1016)

Python `dict` caches are modelled as association lists where an insertion
prepends (the first hit of `dictGet` is the latest binding, matching
`dict.__setitem__` followed by `dict.get`).

`ResolveEnv` packages the outcome of one round of discovery as oracles:
`clientAvailable` is `self._client is not None`; `xmlResult` the value of
`self._stream_url_from_xml(station_id)` (its internal candidate-URL loop,
playlist fetches and fallbacks are network effects summarised by their
returned value); `stationKnown` whether `self._station_map` holds the id;
`clientPath` the URL produced by the `_ensure_selected` +
`_get_stream_from_station` attempt including the one-shot re-select retry
(`none` = that whole attempt raised); `rawFallback` the value of
`str(self._client.get_stream(station_id))` (`none` = it raised too). -/

def dictGet (d : List (String × String)) (k : String) : Option String :=
  match d.find? (fun kv => kv.1 == k) with
  | some kv => some kv.2
  | none => none

def dictSet (d : List (String × String)) (k v : String) : List (String × String) :=
  (k, v) :: d

structure ResolveEnv where
  clientAvailable : Bool
  xmlResult : Option String
  stationKnown : Bool
  clientPath : Option String
  rawFallback : Option String
deriving DecidableEq

/-- Steps 3 and 4 of the fallback chain (aggregator client API, then raw
identifier fallback), lines 417-447: reached only when XML discovery
produced nothing truthy; none of these steps writes to
`_stream_url_cache`. -/
def streamUrlClientSteps (env : ResolveEnv) : Option String :=
  if !env.stationKnown then none
  else
    match env.clientPath with
    | some url => some url
    | none => env.rawFallback

/-- `RadikoResolver.stream_url`: result, new `_stream_url_cache`, and
whether discovery (anything past the cache lookup) was invoked. -/
def stream_url (env : ResolveEnv) (cache : List (String × String)) (sid : String) :
    Option String × List (String × String) × Bool :=
  if !env.clientAvailable then (none, cache, false)
  else
    let cached := dictGet cache sid
    if truthyOpt cached && !pyIn "medialist" (cached.getD "") then (cached, cache, false)
    else
      match env.xmlResult with
      | some url =>
        if truthy url then
          if pyIn "medialist" url then (some url, cache, true)
          else (some url, dictSet cache sid url, true)
        else (streamUrlClientSteps env, cache, true)
      | none => (streamUrlClientSteps env, cache, true)

/-- The stream-resolution fragment of `Player._start_current`: given the
current station, the player-level `_stream_cache` and the resolver state,
produce the stream URL, the two updated caches, and whether
`self._resolver.stream_url` was invoked. -/
def startCurrentResolve (station : Station) (hasResolver : Bool)
    (pcache : List (String × String)) (env : ResolveEnv)
    (rcache : List (String × String)) :
    Option String × List (String × String) × List (String × String) × Bool :=
  if truthy station.stream_url then (some station.stream_url, pcache, rcache, false)
  else if !hasResolver then (none, pcache, rcache, false)
  else
    let cached := dictGet pcache station.id
    if truthyOpt cached && !pyIn "medialist" (cached.getD "") then
      (cached, pcache, rcache, false)
    else
      let r := stream_url env rcache station.id
      match r.1 with
      | some u =>
        if truthy u then
          if pyIn "medialist" u then (some u, pcache, r.2.1, true)
          else (some u, dictSet pcache station.id u, r.2.1, true)
        else (some u, pcache, r.2.1, true)
      | none => (none, pcache, r.2.1, true)

/-- A discovery round where XML discovery yields nothing and the
aggregator-client accessor chain produces a stable URL. -/
def clientOnlyEnv : ResolveEnv :=
  { clientAvailable := true, xmlResult := none, stationKnown := true,
    clientPath := some "http://example.com/live", rawFallback := none }

/-- C1 counterexample: a station whose URL is discovered through the
aggregator-client path (XML discovery yields nothing) resolves
successfully to a URL free of the transient marker, yet the resolver's
stream-URL cache stays empty and the very next `stream_url` call invokes
discovery again — refuting "a successful resolution populates the
stream-URL cache, and a subsequent resolve returns the cached value
without re-invoking discovery" for the client-API path. -/
theorem resolver_client_path_not_cached_cex :
    (stream_url clientOnlyEnv [] "A").1 = some "http://example.com/live" ∧
    pyIn "medialist" "http://example.com/live" = false ∧
    (stream_url clientOnlyEnv [] "A").2.1 = [] ∧
    (stream_url clientOnlyEnv (stream_url clientOnlyEnv [] "A").2.1 "A").2.2 = true := by
  refine ⟨by decide, by decide, by decide, by decide⟩

theorem dictGet_dictSet (d : List (String × String)) (k v : String) :
    dictGet (dictSet d k v) k = some v := by
  simp [dictGet, dictSet, List.find?]

/-- C1 (amended): only manifest-XML discovery populates the resolver's
stream-URL cache.  (A) When XML discovery returns a truthy URL without the
transient marker `"medialist"` for an uncached station, the resolution
returns it, caches it, and a second `stream_url` call returns the cached
value without invoking discovery.  (B) When the discovered URL contains
`"medialist"` it is never cached and the next call re-invokes discovery.
(C) A URL obtained with no truthy XML result (aggregator client API or raw
identifier fallback) leaves the resolver cache untouched.  (D) At the
player level, `_start_current` caches any truthy marker-free resolved URL
in its own `_stream_cache`, and its next run returns that cached value
without invoking the resolver at all. -/
theorem stream_url_cache_population (env : ResolveEnv)
    (cache : List (String × String)) (sid url : String) (station : Station)
    (pcache rcache : List (String × String)) :
    (env.clientAvailable = true → env.xmlResult = some url → truthy url = true →
      pyIn "medialist" url = false → dictGet cache sid = none →
      stream_url env cache sid = (some url, dictSet cache sid url, true) ∧
      stream_url env (dictSet cache sid url) sid =
        (some url, dictSet cache sid url, false)) ∧
    (env.clientAvailable = true → env.xmlResult = some url → truthy url = true →
      pyIn "medialist" url = true → dictGet cache sid = none →
      stream_url env cache sid = (some url, cache, true) ∧
      (stream_url env cache sid).2.2 = true) ∧
    (truthyOpt env.xmlResult = false → (stream_url env cache sid).2.1 = cache) ∧
    (truthy station.stream_url = false → dictGet pcache station.id = none →
      (stream_url env rcache station.id).1 = some url → truthy url = true →
      pyIn "medialist" url = false →
      (startCurrentResolve station true pcache env rcache).1 = some url ∧
      (startCurrentResolve station true pcache env rcache).2.1 =
        dictSet pcache station.id url ∧
      startCurrentResolve station true (dictSet pcache station.id url) env
          (startCurrentResolve station true pcache env rcache).2.2.1 =
        (some url, dictSet pcache station.id url,
          (startCurrentResolve station true pcache env rcache).2.2.1, false)) := by
  refine ⟨fun hav hxml hu hm hc => ?_, fun hav hxml hu hm hc => ?_, fun hx => ?_,
    fun hsu hpc hres hu hm => ?_⟩
  · constructor
    · simp [stream_url, hav, hxml, hu, hm, hc, truthyOpt]
    · have hget := dictGet_dictSet cache sid url
      simp [stream_url, hav, hget, truthyOpt, hu, hm]
  · constructor <;> simp [stream_url, hav, hxml, hu, hm, hc, truthyOpt]
  · unfold stream_url
    cases hcl : env.clientAvailable with
    | false => simp
    | true =>
      simp only [Bool.not_true, Bool.false_eq_true, if_false]
      split
      · rfl
      · cases hxe : env.xmlResult with
        | none => rfl
        | some u =>
          rw [hxe] at hx
          have : truthy u = false := by simpa [truthyOpt] using hx
          simp [this]
  · have hstep : startCurrentResolve station true pcache env rcache =
        (some url, dictSet pcache station.id url,
          (stream_url env rcache station.id).2.1, true) := by
      simp only [startCurrentResolve, hsu, Bool.false_eq_true, if_false,
        Bool.not_true, hpc]
      simp only [truthyOpt, Bool.false_and, Bool.false_eq_true, if_false]
      rw [hres]
      simp [hu, hm]
    refine ⟨by rw [hstep], by rw [hstep], ?_⟩
    have hget := dictGet_dictSet pcache station.id url
    rw [hstep]
    simp only [startCurrentResolve, hsu, Bool.false_eq_true, if_false,
      Bool.not_true, hget]
    simp [truthyOpt, hu, hm]

/-- Witness for `stream_url_cache_population` with concrete inputs: an XML
discovery producing a stable URL that is cached and then served from the
cache, a `medialist` URL that is never cached, a client-path resolution
leaving the resolver cache untouched, and the player-level cache short
circuit. -/
theorem stream_url_cache_population_witness :
    (stream_url
        { clientAvailable := true, xmlResult := some "https://h.example/p.m3u8",
          stationKnown := true, clientPath := none, rawFallback := none } [] "S" =
      (some "https://h.example/p.m3u8", [("S", "https://h.example/p.m3u8")], true) ∧
      stream_url
        { clientAvailable := true, xmlResult := some "https://h.example/p.m3u8",
          stationKnown := true, clientPath := none, rawFallback := none }
        [("S", "https://h.example/p.m3u8")] "S" =
      (some "https://h.example/p.m3u8", [("S", "https://h.example/p.m3u8")], false)) ∧
    (stream_url
        { clientAvailable := true, xmlResult := some "https://h.example/medialist/q",
          stationKnown := true, clientPath := none, rawFallback := none } [] "S" =
      (some "https://h.example/medialist/q", [], true)) ∧
    (stream_url
        { clientAvailable := true, xmlResult := none, stationKnown := true,
          clientPath := some "http://example.com/live", rawFallback := none }
        [] "S").2.1 = [] ∧
    ((startCurrentResolve ⟨"S", "", "", ""⟩ true []
        { clientAvailable := true, xmlResult := none, stationKnown := true,
          clientPath := some "http://example.com/live", rawFallback := none } []).1 =
      some "http://example.com/live" ∧
      (startCurrentResolve ⟨"S", "", "", ""⟩ true []
        { clientAvailable := true, xmlResult := none, stationKnown := true,
          clientPath := some "http://example.com/live", rawFallback := none } []).2.1 =
      [("S", "http://example.com/live")]) := by
  refine ⟨?_, ?_, ?_, ?_⟩
  · have h := (stream_url_cache_population
      { clientAvailable := true, xmlResult := some "https://h.example/p.m3u8",
        stationKnown := true, clientPath := none, rawFallback := none }
      [] "S" "https://h.example/p.m3u8" ⟨"S", "", "", ""⟩ [] []).1
      rfl rfl (by decide) (by decide) (by decide)
    exact ⟨h.1, h.2⟩
  · exact ((stream_url_cache_population
      { clientAvailable := true, xmlResult := some "https://h.example/medialist/q",
        stationKnown := true, clientPath := none, rawFallback := none }
      [] "S" "https://h.example/medialist/q" ⟨"S", "", "", ""⟩ [] []).2.1
      rfl rfl (by decide) (by decide) (by decide)).1
  · exact (stream_url_cache_population
      { clientAvailable := true, xmlResult := none, stationKnown := true,
        clientPath := some "http://example.com/live", rawFallback := none }
      [] "S" "u" ⟨"S", "", "", ""⟩ [] []).2.2.1 (by decide)
  · have h := (stream_url_cache_population
      { clientAvailable := true, xmlResult := none, stationKnown := true,
        clientPath := some "http://example.com/live", rawFallback := none }
      [] "S" "http://example.com/live" ⟨"S", "", "", ""⟩ [] []).2.2.2
      (by decide) (by decide) (by decide) (by decide) (by decide)
    exact ⟨h.1, h.2.1⟩

/-! ### Playback-start decision: `Player._start_current` (lines 1018-1044)

`startPlayback` is the branch structure after the URL has been resolved:
`missingStream` = the `"stream_url missing"` status (no resolvable URL);
`tokenMissing` = the `"radiko token missing"` status refusing playback;
`ffmpegWorld` = `_start_ffmpeg_plain` (world mode, no auth headers);
`ffmpegAuth` = `_start_ffmpeg` with the auth headers attached;
`mpdPlain` = `play_stream` handing the URL to the media daemon.
`radikoToken` is `self._radiko_token` and `hasResolver` whether
`self._resolver` is set. -/

inductive StartAction where
  | missingStream
  | tokenMissing
  | ffmpegWorld
  | ffmpegAuth
  | mpdPlain
deriving DecidableEq

def startPlayback (mode : Mode) (hasResolver : Bool) (streamUrl : Option String)
    (radikoToken : Option String) : StartAction :=
  if !truthyOpt streamUrl then StartAction.missingStream
  else
    let url := streamUrl.getD ""
    let isRadikoStream := hasResolver &&
      (pyIn "radiko" url || pyIn "smartstream" url) && decide (mode = Mode.radiko)
    if pyEndsWith url ".m3u8" && !truthyOpt radikoToken then StartAction.tokenMissing
    else if mode = Mode.world then StartAction.ffmpegWorld
    else if truthyOpt radikoToken && (pyEndsWith url ".m3u8" || isRadikoStream) then
      StartAction.ffmpegAuth
    else StartAction.mpdPlain

/-- Playback actually starts (a decoder is spawned or the media daemon is
told to play); refusals and the missing-URL status do not start it. -/
def startsPlayback : StartAction → Bool
  | StartAction.ffmpegWorld => true
  | StartAction.ffmpegAuth => true
  | StartAction.mpdPlain => true
  | _ => false

/-- C2 counterexample: with no cached auth token, a secondary-mode (world)
station whose own stream URL ends in `.m3u8` — a stream that needs no
aggregator authentication to fetch — is refused with the token-missing
status instead of starting, because the `.m3u8`/no-token check runs before
the world-mode branch. -/
theorem world_m3u8_refused_without_token_cex :
    startPlayback Mode.world true (some "http://r.example/live.m3u8") none =
      StartAction.tokenMissing ∧
    startsPlayback
      (startPlayback Mode.world true (some "http://r.example/live.m3u8") none) = false := by
  refine ⟨by decide, by decide⟩

/-- C2 (amended): with no cached auth token, playback start refuses exactly
the resolved URLs ending in the HLS manifest extension `.m3u8` (surfacing
the token-missing status), regardless of mode — including world-mode
stations; every other truthy resolved URL still starts: through the plain
decoder in world mode and through the media-daemon queue otherwise (the
authenticated decoder is never used without a token). -/
theorem start_playback_token_gate (mode : Mode) (hasResolver : Bool)
    (streamUrl : Option String) :
    (truthyOpt streamUrl = true →
      (startPlayback mode hasResolver streamUrl none = StartAction.tokenMissing ↔
        pyEndsWith (streamUrl.getD "") ".m3u8" = true)) ∧
    (truthyOpt streamUrl = true → pyEndsWith (streamUrl.getD "") ".m3u8" = false →
      startPlayback mode hasResolver streamUrl none =
        (if mode = Mode.world then StartAction.ffmpegWorld else StartAction.mpdPlain) ∧
      startsPlayback (startPlayback mode hasResolver streamUrl none) = true) := by
  cases streamUrl with
  | none =>
    refine ⟨fun hs => ?_, fun hs hend => ?_⟩ <;> simp [truthyOpt] at hs
  | some u =>
    refine ⟨fun hs => ?_, fun hs hend => ?_⟩
    · have hu : truthy u = true := by simpa [truthyOpt] using hs
      constructor
      · intro h
        by_contra hend
        have hend2 : pyEndsWith u ".m3u8" = false := by
          cases hval : pyEndsWith u ".m3u8" with
          | true => exact absurd hval (by simpa using hend)
          | false => rfl
        by_cases hw : mode = Mode.world <;>
          simp [startPlayback, truthyOpt, hu, hend2, hw] at h
      · intro hend
        have hend2 : pyEndsWith u ".m3u8" = true := by simpa using hend
        simp [startPlayback, truthyOpt, hu, hend2]
    · have hu : truthy u = true := by simpa [truthyOpt] using hs
      have hend2 : pyEndsWith u ".m3u8" = false := by simpa using hend
      by_cases hw : mode = Mode.world <;>
        simp [startPlayback, truthyOpt, hu, hend2, hw, startsPlayback]

/-- Witness for `start_playback_token_gate`: a world station with a plain
MP3 stream and no token still starts through the plain decoder; a radiko
station with a non-manifest stream and no token starts through the media
daemon; a `.m3u8` URL without a token is refused. -/
theorem start_playback_token_gate_witness :
    startPlayback Mode.world true (some "http://world.example/stream.mp3") none =
      StartAction.ffmpegWorld ∧
    startPlayback Mode.radiko true (some "http://r.example/stream") none =
      StartAction.mpdPlain ∧
    startPlayback Mode.radiko true (some "http://r.example/p.m3u8") none =
      StartAction.tokenMissing := by
  refine ⟨?_, ?_, ?_⟩
  · have h := ((start_playback_token_gate Mode.world true
      (some "http://world.example/stream.mp3")).2 (by decide) (by decide)).1
    simpa using h
  · have h := ((start_playback_token_gate Mode.radiko true
      (some "http://r.example/stream")).2 (by decide) (by decide)).1
    simpa using h
  · exact ((start_playback_token_gate Mode.radiko true
      (some "http://r.example/p.m3u8")).1 (by decide)).mpr (by decide)

/-! ### Audio subprocess lifecycle: `Player._stop_ffmpeg` (lines 1313-1325)
and the subprocess handling of `_start_current` (lines 1018-1044)

The subprocess handle `self._ffmpeg` is modelled as an `Option Nat`
(process identity).  `ProcEnv` carries whether `terminate()`/`wait(2)`
raises (timeout or error) and whether the forced `kill()` raises; both are
swallowed by the Python code.  `startCurrentProc` is the subprocess side of
`_start_current` given the decided `StartAction`: on everything but a
missing URL the old process is stopped first, and a new decoder is spawned
only for the two ffmpeg actions (the media-daemon path owns no
subprocess). -/

structure ProcEnv where
  terminateRaises : Bool
  killRaises : Bool
deriving DecidableEq

inductive StopOutcome where
  | noProc
  | terminated
  | killed
  | killSwallowed
deriving DecidableEq

def stop_ffmpeg (h : Option Nat) (env : ProcEnv) : Option Nat × StopOutcome :=
  match h with
  | none => (none, StopOutcome.noProc)
  | some _ =>
    if env.terminateRaises then
      if env.killRaises then (none, StopOutcome.killSwallowed)
      else (none, StopOutcome.killed)
    else (none, StopOutcome.terminated)

inductive ProcEv where
  | stopped (p : Nat) (o : StopOutcome)
  | spawned (p : Nat)
deriving DecidableEq

def startCurrentProc (act : StartAction) (h : Option Nat) (env : ProcEnv)
    (newProc : Nat) : Option Nat × List ProcEv :=
  match act with
  | StartAction.missingStream => (h, [])
  | act =>
    let s := stop_ffmpeg h env
    let stopEvs : List ProcEv :=
      match h with
      | none => []
      | some p => [ProcEv.stopped p s.2]
    match act with
    | StartAction.ffmpegWorld => (some newProc, stopEvs ++ [ProcEv.spawned newProc])
    | StartAction.ffmpegAuth => (some newProc, stopEvs ++ [ProcEv.spawned newProc])
    | _ => (s.1, stopEvs)

/-- C8: (1) `_stop_ffmpeg` always clears the handle, whatever the
termination outcome; (2) the stop protocol on a live handle is graceful
terminate with bounded wait, then force-kill if that raises, with a kill
error swallowed — it never propagates (the function is total and its
outcome is exactly determined by which steps raised); (3) whenever a new
decoder is spawned while a previous handle existed, the event trace shows
the previous process stopped strictly before the spawn; (4) after any
start, the owned handle is at most the newly spawned process or empty —
never a second live handle next to the old one. -/
theorem ffmpeg_single_ownership (h : Option Nat) (env : ProcEnv)
    (act : StartAction) (p newProc : Nat) :
    ((stop_ffmpeg h env).1 = none) ∧
    (stop_ffmpeg (some p) env =
      (none, if env.terminateRaises then
          (if env.killRaises then StopOutcome.killSwallowed else StopOutcome.killed)
        else StopOutcome.terminated)) ∧
    (ProcEv.spawned newProc ∈ (startCurrentProc act h env newProc).2 → h = some p →
      (startCurrentProc act h env newProc).2 =
        [ProcEv.stopped p (stop_ffmpeg h env).2, ProcEv.spawned newProc]) ∧
    ((startCurrentProc act h env newProc).1 = some newProc ∨
      (startCurrentProc act h env newProc).1 = none ∨
      (act = StartAction.missingStream ∧ (startCurrentProc act h env newProc).1 = h)) := by
  refine ⟨?_, ?_, fun hsp hh => ?_, ?_⟩
  · cases h <;> simp [stop_ffmpeg] <;> split <;> try split
    all_goals rfl
  · simp only [stop_ffmpeg]
    by_cases ht : env.terminateRaises = true <;> by_cases hk : env.killRaises = true <;>
      simp [ht, hk]
  · subst hh
    cases act <;> simp [startCurrentProc] at hsp ⊢
  · cases act <;> cases h <;>
      simp [startCurrentProc, stop_ffmpeg] <;> split <;> try split
    all_goals simp

/-- Witness for `ffmpeg_single_ownership`: a running decoder (pid 41) is
stopped — gracefully here — before pid 42 is spawned for an authenticated
stream, and the stop alone always clears the handle even when both
terminate and kill raise. -/
theorem ffmpeg_single_ownership_witness :
    (stop_ffmpeg (some 41) { terminateRaises := true, killRaises := true }).1 = none ∧
    stop_ffmpeg (some 41) { terminateRaises := false, killRaises := false } =
      (none, StopOutcome.terminated) ∧
    (startCurrentProc StartAction.ffmpegAuth (some 41)
        { terminateRaises := false, killRaises := false } 42).2 =
      [ProcEv.stopped 41 StopOutcome.terminated, ProcEv.spawned 42] := by
  refine ⟨(ffmpeg_single_ownership (some 41)
      { terminateRaises := true, killRaises := true }
      StartAction.ffmpegAuth 41 42).1, ?_, ?_⟩
  · have h := (ffmpeg_single_ownership (some 41)
      { terminateRaises := false, killRaises := false }
      StartAction.ffmpegAuth 41 42).2.1
    simpa using h
  · have h := (ffmpeg_single_ownership (some 41)
      { terminateRaises := false, killRaises := false }
      StartAction.ffmpegAuth 41 42).2.2.1 (by decide) rfl
    simpa using h

/-! ### Manifest-XML raw fallback regex:
`RadikoResolver._stream_url_from_xml`, lines 660-663

The final fallback runs `re.search(r"https?://[^\\s<>\"]+\\.m3u8", text)` on
the whole response body.  Inside the raw string the doubled backslashes
stay doubled, so the pattern the regex engine receives is:
`https?://`, then one or more characters, each excluded from the set
{backslash, the letter s, `<`, `>`, `"`} (the `\\s` is an escaped
backslash followed by a literal `s`, not a whitespace class), then a
literal backslash (`\\`), then any single non-newline character (`.`),
then `m3u8`.  `search661` is a direct executable model of whether that
pattern matches anywhere in the text (Python `re.search` semantics:
a match at any position, with backtracking for the `+`).

`search710` models the sibling pattern of `_fetch_playlist_m3u8`
(line 710), `r"https?://[^\s<>\"]+\.m3u8"`, whose single backslashes give
the evidently intended pattern: URL characters excluding whitespace and
`<>"`, then the literal extension `.m3u8` (`\s` is modelled as Unicode
whitespace). -/

def class661 (c : Char) : Bool :=
  !(c == '\\' || c == 's' || c == '<' || c == '>' || c == '"')

def tail661 : List Char → Bool
  | '\\' :: d :: 'm' :: '3' :: 'u' :: '8' :: _ => !(d == '\n')
  | _ => false

def plus661 : List Char → Bool
  | [] => false
  | c :: rest => class661 c && (tail661 rest || plus661 rest)

def startMatch661 : List Char → Bool
  | 'h' :: 't' :: 't' :: 'p' :: 's' :: ':' :: '/' :: '/' :: r => plus661 r
  | 'h' :: 't' :: 't' :: 'p' :: ':' :: '/' :: '/' :: r => plus661 r
  | _ => false

def search661 : List Char → Bool
  | [] => false
  | c :: rest => startMatch661 (c :: rest) || search661 rest

def class710 (c : Char) : Bool :=
  !(c.isWhitespace || c == '<' || c == '>' || c == '"')

def tail710 : List Char → Bool
  | '.' :: 'm' :: '3' :: 'u' :: '8' :: _ => true
  | _ => false

def plus710 : List Char → Bool
  | [] => false
  | c :: rest => class710 c && (tail710 rest || plus710 rest)

def startMatch710 : List Char → Bool
  | 'h' :: 't' :: 't' :: 'p' :: 's' :: ':' :: '/' :: '/' :: r => plus710 r
  | 'h' :: 't' :: 't' :: 'p' :: ':' :: '/' :: '/' :: r => plus710 r
  | _ => false

def search710 : List Char → Bool
  | [] => false
  | c :: rest => startMatch710 (c :: rest) || search710 rest

/-- A non-XML manifest-description response body: structured parsing raises
on it, so only the raw pattern search is left for it. -/
def rawFallbackBody : String := "status-redirect https://a.example/b.m3u8 end"

/-- C3 (code bug): a non-XML manifest-description body (structured parsing
yields nothing for it) that plainly contains the absolute HLS manifest URL
`https://a.example/b.m3u8` is missed by the line-661 fallback pattern — its
over-escaped character class forbids the letter `s` and demands a literal
backslash before `.m3u8`, so `re.search` finds nothing and the fallback
yields no URL — while the correctly escaped sibling pattern of line 710
does find a match in the very same body, confirming the escaping slip. -/
theorem xml_regex_fallback_misses_hls_url :
    pyIn "https://a.example/b.m3u8" rawFallbackBody = true ∧
    pyEndsWith "https://a.example/b.m3u8" ".m3u8" = true ∧
    search661 rawFallbackBody.data = false ∧
    search710 rawFallbackBody.data = true := by
  refine ⟨by decide, by decide, by decide, by decide⟩

end RPlayer
